import Mathlib

/-!
Shallow embedding of the paginated artwork browser component in
src/src/App.tsx: its React state hooks become an explicit state record,
and each handler or effect body becomes a pure state-transition function
translated line by line from the source.
-/

namespace ArtworksApp

/-- One record of the browsable collection, mirroring the Artwork
interface of the source: id, title, and an optional artist_title. -/
structure Artwork where
  id : Nat
  title : String
  artist_title : Option String
deriving DecidableEq, Repr

/-- The pagination object of the remote JSON response. The source only
reads the total field, through an optional chain, so every field is
modelled as possibly absent at runtime. -/
structure PaginationJson where
  total : Option Nat
  current_page : Option Nat
  total_pages : Option Nat
  limit : Option Nat
deriving DecidableEq, Repr

/-- The decoded JSON body of a successful fetch. The source guards both
fields against absence, so both are optional here. -/
structure ApiResponseJson where
  data : Option (List Artwork)
  pagination : Option PaginationJson
deriving DecidableEq, Repr

/-- Outcome of one fetch call: either the decoded JSON, or a transport
or decode failure that lands in the catch block of fetchData. -/
inductive FetchResult where
  | failure
  | success (json : ApiResponseJson)
deriving DecidableEq, Repr

/-- The component state: one field per useState hook of App, in source
order. data is the current page of records, totalRecords the stored
total count, first the zero-based paginator index, rows the page size,
selected the selection set, selectCount the pending overlay input, and
remainingToSelect with isSelecting the cross-page accumulator. -/
structure AppState where
  data : List Artwork
  totalRecords : Nat
  first : Nat
  rows : Nat
  selected : Finset Nat
  selectCount : Int
  remainingToSelect : Int
  isSelecting : Bool
deriving DecidableEq

/-- Nat version of Math.ceil of a division, agreeing with the JS
expression for a positive divisor. -/
def ceilDiv (a b : Nat) : Nat := (a + b - 1) / b

/-- The derived current page of the component: floor of first over rows,
plus one. -/
def currentPage (s : AppState) : Nat := s.first / s.rows + 1

/-- The derived total page count of the component: ceiling of
totalRecords over rows. -/
def totalPages (s : AppState) : Nat := ceilDiv s.totalRecords s.rows

/-- Embeds the state writes of fetchData. On failure the catch block
only logs, so the state is returned unchanged. On success, data is set
to the data field or the empty list when absent, and totalRecords to
the pagination total unless it is absent or zero, in which case the JS
falsy-or operator substitutes 100. -/
def applyFetch : FetchResult → AppState → AppState
  | .failure, s => s
  | .success json, s =>
      { s with
        data := json.data.getD [],
        totalRecords :=
          match json.pagination with
          | none => 100
          | some p =>
              match p.total with
              | none => 100
              | some t => if t = 0 then 100 else t }

/-- Embeds toggleSelect: flips membership of one id in the selection
set. -/
def toggleSelect (id : Nat) (s : AppState) : AppState :=
  if id ∈ s.selected then { s with selected := s.selected.erase id }
  else { s with selected := insert id s.selected }

/-- Embeds toggleSelectAll: when the page is nonempty and every item on
it is selected, every page id is removed from the set; otherwise every
page id is added. -/
def toggleSelectAll (s : AppState) : AppState :=
  if 0 < s.data.length ∧ ∀ item ∈ s.data, item.id ∈ s.selected then
    { s with selected := s.data.foldl (fun acc item => acc.erase item.id) s.selected }
  else
    { s with selected := s.data.foldl (fun acc item => insert item.id acc) s.selected }

/-- Embeds handleSelectN: a nonpositive selectCount is a no-op (the
overlay is merely hidden); a positive one becomes the new
remainingToSelect, isSelecting is raised, and selectCount is reset. -/
def handleSelectN (s : AppState) : AppState :=
  if s.selectCount ≤ 0 then s
  else { s with remainingToSelect := s.selectCount, isSelecting := true, selectCount := 0 }

/-- Embeds the for-loop of the cross-page selection effect: walks the
page items in source order, breaking once the count of newly selected
items reaches remaining, adding each id not already in the set.
Returns the grown set and the count selected in this page. -/
def selLoop : List Artwork → Finset Nat → Int → Int → Finset Nat × Int
  | [], newSet, _, c => (newSet, c)
  | item :: rest, newSet, remaining, c =>
      if remaining ≤ c then (newSet, c)
      else if item.id ∈ newSet then selLoop rest newSet remaining c
      else selLoop rest (insert item.id newSet) remaining (c + 1)

/-- Embeds the body of the cross-page selection useEffect, run once per
page arrival: an early return when not selecting or nothing remains;
otherwise the loop selects from the current page, remainingToSelect is
decremented by the count selected, and then either the paginator is
advanced by one page, or isSelecting is lowered when the request is
satisfied or the last page is reached with a nonempty page. -/
def selectionEffect (s : AppState) : AppState :=
  if s.isSelecting = false ∨ s.remainingToSelect ≤ 0 then s
  else
    let p := selLoop s.data s.selected s.remainingToSelect 0
    let s1 : AppState := { s with selected := p.1, remainingToSelect := s.remainingToSelect - p.2 }
    if p.2 < s.remainingToSelect ∧ 0 < s.data.length then
      if currentPage s < totalPages s then { s1 with first := s1.first + s.rows }
      else { s1 with isSelecting := false }
    else if s.remainingToSelect ≤ p.2 then { s1 with isSelecting := false }
    else s1

/-- Embeds handlePageChange: the requested page is computed from the
event offset and page size, and the offset and page size are stored
only when that page lies within bounds; otherwise nothing happens. -/
def handlePageChange (eFirst eRows : Nat) (s : AppState) : AppState :=
  if 1 ≤ eFirst / eRows + 1 ∧ eFirst / eRows + 1 ≤ totalPages s then
    { s with first := eFirst, rows := eRows }
  else s

/-! Concrete fixtures used by the scenario parts of the claims. -/

/-- A record with the given id and empty labels. -/
def mkArt (i : Nat) : Artwork := ⟨i, "", none⟩

/-- The first fixture page, ids 1 to 10. -/
def fixPage1 : List Artwork := (List.range 10).map (fun i => mkArt (i + 1))

/-- The second fixture page, ids 11 to 20. -/
def fixPage2 : List Artwork := (List.range 10).map (fun i => mkArt (i + 11))

/-- The successful response carrying the second fixture page of a
20-record collection. -/
def fixResp2 : ApiResponseJson := ⟨some fixPage2, some ⟨some 20, some 2, some 2, some 10⟩⟩

/-! Helper lemmas about the selection loop and the effect body. -/

/-- The count returned by the loop never drops below its starting
value. -/
theorem selLoop_count_ge (items : List Artwork) (st : Finset Nat) (r c : Int) :
    c ≤ (selLoop items st r c).2 := by
  induction items generalizing st c with
  | nil => simp [selLoop]
  | cons a rest ih =>
      simp only [selLoop]
      split
      · simp
      · split
        · exact ih st c
        · exact le_trans (by omega) (ih (insert a.id st) (c + 1))

/-- The count returned by the loop never exceeds the remaining target,
provided it starts below it. -/
theorem selLoop_count_le (items : List Artwork) (st : Finset Nat) (r c : Int)
    (h : c ≤ r) : (selLoop items st r c).2 ≤ r := by
  induction items generalizing st c with
  | nil => simpa [selLoop] using h
  | cons a rest ih =>
      simp only [selLoop]
      split
      · exact h
      · rename_i hlt
        split
        · exact ih st c h
        · exact ih (insert a.id st) (c + 1) (by omega)

/-- When the target is positive and some item of the page is not yet in
the set, the loop selects at least one item. -/
theorem selLoop_count_pos (items : List Artwork) (st : Finset Nat) (r : Int)
    (hr : 0 < r) (hex : ∃ a ∈ items, a.id ∉ st) :
    0 < (selLoop items st r 0).2 := by
  induction items generalizing st with
  | nil =>
      obtain ⟨a, ha, _⟩ := hex
      cases ha
  | cons a rest ih =>
      simp only [selLoop]
      rw [if_neg (by omega)]
      by_cases hm : a.id ∈ st
      · rw [if_pos hm]
        apply ih
        obtain ⟨b, hb, hbn⟩ := hex
        rcases List.mem_cons.mp hb with hba | hbr
        · exact absurd (hba ▸ hm) hbn
        · exact ⟨b, hbr, hbn⟩
      · rw [if_neg hm]
        have := selLoop_count_ge rest (insert a.id st) r (0 + 1)
        omega

/-- Branch-by-branch description of one run of the effect body while
the accumulator is active: the selected set and the new remaining come
from the loop, the page and pagination inputs are untouched, and the
isSelecting flag is lowered exactly as the source branches dictate. -/
theorem selectionEffect_spec (s : AppState) (h1 : s.isSelecting = true)
    (h2 : 0 < s.remainingToSelect) :
    (selectionEffect s).selected = (selLoop s.data s.selected s.remainingToSelect 0).1 ∧
    (selectionEffect s).remainingToSelect
      = s.remainingToSelect - (selLoop s.data s.selected s.remainingToSelect 0).2 ∧
    (selectionEffect s).data = s.data ∧
    (selectionEffect s).rows = s.rows ∧
    (selectionEffect s).totalRecords = s.totalRecords ∧
    (s.remainingToSelect ≤ (selLoop s.data s.selected s.remainingToSelect 0).2 →
       (selectionEffect s).isSelecting = false) ∧
    ((selLoop s.data s.selected s.remainingToSelect 0).2 < s.remainingToSelect →
       0 < s.data.length → ¬ currentPage s < totalPages s →
       (selectionEffect s).isSelecting = false) ∧
    ((selLoop s.data s.selected s.remainingToSelect 0).2 < s.remainingToSelect →
       0 < s.data.length → currentPage s < totalPages s →
       (selectionEffect s).isSelecting = true ∧ (selectionEffect s).first = s.first + s.rows) := by
  have hc : ¬ (s.isSelecting = false ∨ s.remainingToSelect ≤ 0) := by
    simp [h1]
    omega
  unfold selectionEffect
  rw [if_neg hc]
  simp only
  split_ifs with hA hB hD
  · refine ⟨rfl, rfl, rfl, rfl, rfl, ?_, ?_, ?_⟩ <;> intros <;> first | omega | exact ⟨h1, rfl⟩
  · refine ⟨rfl, rfl, rfl, rfl, rfl, ?_, ?_, ?_⟩ <;> intros <;> first | rfl | omega
  · refine ⟨rfl, rfl, rfl, rfl, rfl, ?_, ?_, ?_⟩ <;> intros <;>
      first | rfl | (exact absurd ⟨by omega, by omega⟩ hA)
  · refine ⟨rfl, rfl, rfl, rfl, rfl, ?_, ?_, ?_⟩ <;> intros <;> omega

/-! Claim C1. -/

/-- The 20-record page shown after the second fetch, issued with page
size 20. -/
def fixPage20 : List Artwork := (List.range 20).map (fun i => mkArt (i + 101))

/-- The response of the first fetch, issued earlier for page one at
page size 10, arriving only after the second fetch was applied. -/
def staleResp : ApiResponseJson := ⟨some fixPage1, some ⟨some 100, some 1, some 10, some 10⟩⟩

/-- The state after the second fetch, the one issued at page size 20,
has been applied: 20 records are shown. -/
def afterSecondFetch : AppState := ⟨fixPage20, 100, 0, 20, ∅, 0, 0, false⟩

/-- Claim C1: the claim requires a stale response, one issued before a
later fetch, to be discarded. The source tags fetches with no sequence
number and applies every arriving success unconditionally, so applying
the response issued at page size 10 after the page size 20 state is in
place is not a no-op: it overwrites the shown records with the stale
10-item page. -/
theorem c1_stale_response_overwrites :
    applyFetch (.success staleResp) afterSecondFetch ≠ afterSecondFetch ∧
    (applyFetch (.success staleResp) afterSecondFetch).data = fixPage1 ∧
    afterSecondFetch.data.length = 20 ∧
    (applyFetch (.success staleResp) afterSecondFetch).data.length = 10 := by
  decide

/-! Claim C2. -/

/-- Start of the target-15 scenario: page one of a 20-record
collection shown, nothing selected, 15 typed into the overlay. -/
def c2s0 : AppState := ⟨fixPage1, 20, 0, 10, ∅, 15, 0, false⟩

/-- The state after the first effect run and the re-run the effect
then performs on its own updates: its dependency list includes first,
selected and remainingToSelect, so advancing the paginator re-fires it
at once, still holding the stale first page, before the page-two fetch
can resolve. -/
def c2AfterReRun : AppState := selectionEffect (selectionEffect (handleSelectN c2s0))

/-- The target-15 scenario as the program runs it: the bulk select
starts, the effect processes page one and advances, the effect
re-fires on the stale first page, and only then does the page-two
response arrive and the effect run once more. -/
def c2sFinal : AppState := selectionEffect (applyFetch (.success fixResp2) c2AfterReRun)

/-- Claim C2 counterexample: in the target-15 scenario the effect
re-fires on its own state updates while still holding the stale first
page; that re-run selects nothing, sees the current page equal to the
last page, and lowers isSelecting before page two arrives, so the
arriving second page is ignored and the run ends with ids 1 to 10
selected, size 10, not the claimed 15. The final state is a fixpoint
of the effect, so no later re-run changes the outcome. -/
theorem c2_counterexample :
    c2AfterReRun.isSelecting = false ∧
    c2AfterReRun.selected.card = 10 ∧
    c2sFinal.selected = ({1, 2, 3, 4, 5, 6, 7, 8, 9, 10} : Finset Nat) ∧
    c2sFinal.selected.card = 10 ∧
    c2sFinal.selected.card ≠ 15 ∧
    c2sFinal.selected ≠ ({1, 2, 3, 4, 5, 6, 7, 8, 9, 10, 11, 12, 13, 14, 15} : Finset Nat) ∧
    selectionEffect c2sFinal = c2sFinal := by
  decide

/-- Claim C2 as amended: within one effect invocation while the
accumulator is active, the page is scanned in data order, each id not
already selected is added until the count added reaches the remaining
target, the new remaining is the old minus that count, and a
nonpositive new remaining lowers the accumulator to idle. But because
the effect also re-fires on its own state updates with the still-stale
page, the concrete target-15 run over pages of ids 1 to 10 and 11 to
20 ends idle with exactly ids 1 to 10 selected and a remaining target
of 5: the stale re-run at the last page ends the run before the second
page arrives. -/
theorem c2_page_processing :
    (∀ s : AppState, s.isSelecting = true → 0 < s.remainingToSelect →
      (selectionEffect s).selected = (selLoop s.data s.selected s.remainingToSelect 0).1 ∧
      (selectionEffect s).remainingToSelect
        = s.remainingToSelect - (selLoop s.data s.selected s.remainingToSelect 0).2 ∧
      ((selectionEffect s).remainingToSelect ≤ 0 → (selectionEffect s).isSelecting = false)) ∧
    (c2sFinal.selected = ({1, 2, 3, 4, 5, 6, 7, 8, 9, 10} : Finset Nat) ∧
     c2sFinal.selected.card = 10 ∧
     c2sFinal.isSelecting = false ∧
     c2sFinal.remainingToSelect = 5 ∧
     selectionEffect c2sFinal = c2sFinal) := by
  constructor
  · intro s h1 h2
    obtain ⟨hsel, hrm, _, _, _, hidle, _, _⟩ := selectionEffect_spec s h1 h2
    exact ⟨hsel, hrm, fun h => hidle (by omega)⟩
  · decide

/-- Witness for claim C2, instantiating the step description at the
state in which the target-15 scenario has just started. -/
theorem c2_page_processing_witness :
    (selectionEffect (handleSelectN c2s0)).remainingToSelect
      = (handleSelectN c2s0).remainingToSelect
        - (selLoop (handleSelectN c2s0).data (handleSelectN c2s0).selected
            (handleSelectN c2s0).remainingToSelect 0).2 :=
  (c2_page_processing.1 (handleSelectN c2s0) (by decide) (by decide)).2.1

/-! Claim C3. -/

/-- A state on the last page while the accumulator still wants five
records, but with an empty arrived page. -/
def c3Empty : AppState := ⟨[], 20, 10, 10, ∅, 0, 5, true⟩

/-- Start of the exhaustion scenario: page one of a 20-record
collection shown, nothing selected, 100 typed into the overlay. -/
def c3s0 : AppState := ⟨fixPage1, 20, 0, 10, ∅, 100, 0, false⟩

/-- The state of the exhaustion scenario after the first effect run
and the self-triggered re-run on the stale first page: the re-run
selects nothing and, now sitting on the last page, ends the run. -/
def c3AfterReRun : AppState := selectionEffect (selectionEffect (handleSelectN c3s0))

/-- The exhaustion scenario as the program runs it, with the stale
re-run between the first effect run and the arrival of page two. -/
def c3sFinal : AppState := selectionEffect (applyFetch (.success fixResp2) c3AfterReRun)

/-- Claim C3 counterexample, in two parts. First, on an empty arrived
page the exhaustion branch of the effect is not reached, because the
source also demands a nonempty page before ending the run, so the
accumulator stays active instead of going idle. Second, the claimed
concrete outcome of 20 selected is wrong: the effect re-fires on its
own updates with the stale first page, goes idle at the last page
before page two arrives, and the run ends with only 10 selected, at a
fixpoint of the effect. -/
theorem c3_counterexample :
    (c3Empty.isSelecting = true ∧
     0 < c3Empty.remainingToSelect ∧
     currentPage c3Empty = totalPages c3Empty ∧
     0 < (selectionEffect c3Empty).remainingToSelect ∧
     (selectionEffect c3Empty).isSelecting = true) ∧
    (c3AfterReRun.isSelecting = false ∧
     c3sFinal.selected.card = 10 ∧
     c3sFinal.selected.card ≠ 20 ∧
     selectionEffect c3sFinal = c3sFinal) := by
  decide

/-- Claim C3 as amended: when an effect invocation processes a
nonempty page while the accumulator is active and afterwards the
remaining target is still positive with the current page equal to the
last page, the accumulator goes idle with no error signalled; an empty
page leaves it active. In the concrete run, a target of 100 over a
two-page, 20-record collection does end idle silently and partially
satisfied, but with 10 selected rather than 20, because the idle
transition fires on the stale re-run at the last page before the
second page arrives. -/
theorem c3_exhaustion_idle :
    (∀ s : AppState, s.isSelecting = true → 0 < s.remainingToSelect →
      s.data ≠ [] →
      0 < (selectionEffect s).remainingToSelect →
      currentPage s = totalPages s →
      (selectionEffect s).isSelecting = false) ∧
    (c3sFinal.isSelecting = false ∧
     c3sFinal.selected.card = 10 ∧
     c3sFinal.remainingToSelect = 90 ∧
     totalPages c3s0 = 2 ∧
     selectionEffect c3sFinal = c3sFinal) := by
  constructor
  · intro s h1 h2 hne hrem hcp
    obtain ⟨_, hrm, _, _, _, _, hlast, _⟩ := selectionEffect_spec s h1 h2
    exact hlast (by omega) (List.length_pos.mpr hne) (by omega)
  · decide

/-- A state on the last nonempty page with a large remaining target,
used as the concrete input of the claim C3 witness. -/
def c3Wit : AppState := ⟨fixPage2, 20, 10, 10, ∅, 0, 50, true⟩

/-- Witness for claim C3, instantiating the amended exhaustion rule at
a concrete last-page state. -/
theorem c3_exhaustion_idle_witness : (selectionEffect c3Wit).isSelecting = false :=
  c3_exhaustion_idle.1 c3Wit (by decide) (by decide) (by decide) (by decide) (by decide)

/-! Claim C4. -/

/-- A page whose single record is already selected while the
accumulator wants five more and a further page exists. -/
def c4Mixed : AppState := ⟨[mkArt 1], 20, 0, 10, {1}, 0, 5, true⟩

/-- Claim C4 counterexample: a page contributing no new selection
leaves the remaining target unchanged while the accumulator stays
active, so the claimed strictly-decreases-or-idle alternative fails. -/
theorem c4_counterexample :
    c4Mixed.isSelecting = true ∧
    0 < c4Mixed.remainingToSelect ∧
    (selectionEffect c4Mixed).remainingToSelect = c4Mixed.remainingToSelect ∧
    (selectionEffect c4Mixed).isSelecting = true := by
  decide

/-- Claim C4 as amended: processing a page while the accumulator is
active never increases the remaining target and never drives it
negative, and it strictly decreases whenever the page holds at least
one not-yet-selected record; a page contributing nothing can leave the
target unchanged with the accumulator still active. -/
theorem c4_remaining_monotone :
    ∀ s : AppState, s.isSelecting = true → 0 < s.remainingToSelect →
      (selectionEffect s).remainingToSelect ≤ s.remainingToSelect ∧
      0 ≤ (selectionEffect s).remainingToSelect ∧
      ((∃ a ∈ s.data, a.id ∉ s.selected) →
        (selectionEffect s).remainingToSelect < s.remainingToSelect) := by
  intro s h1 h2
  obtain ⟨_, hrm, _, _, _, _, _, _⟩ := selectionEffect_spec s h1 h2
  have hge := selLoop_count_ge s.data s.selected s.remainingToSelect 0
  have hle := selLoop_count_le s.data s.selected s.remainingToSelect 0 (by omega)
  refine ⟨by omega, by omega, fun hex => ?_⟩
  have hpos := selLoop_count_pos s.data s.selected s.remainingToSelect h2 hex
  omega

/-- Witness for claim C4, instantiating the monotonicity bounds at the
started target-15 scenario state. -/
theorem c4_remaining_monotone_witness :
    0 ≤ (selectionEffect (handleSelectN c3s0)).remainingToSelect :=
  (c4_remaining_monotone (handleSelectN c3s0) (by decide) (by decide)).2.1

/-! Claim C5. -/

/-- Claim C5: a bulk-select request with a nonpositive count is a
no-op leaving the whole state unchanged, while a positive count n puts
the accumulator into the active state with remaining target exactly n,
whatever the prior accumulator state was, with no summation of
targets. -/
theorem c5_start_replaces :
    ∀ s : AppState,
      (s.selectCount ≤ 0 → handleSelectN s = s) ∧
      (0 < s.selectCount →
        (handleSelectN s).isSelecting = true ∧
        (handleSelectN s).remainingToSelect = s.selectCount ∧
        (handleSelectN s).data = s.data ∧
        (handleSelectN s).totalRecords = s.totalRecords ∧
        (handleSelectN s).first = s.first ∧
        (handleSelectN s).rows = s.rows ∧
        (handleSelectN s).selected = s.selected) := by
  intro s
  unfold handleSelectN
  constructor
  · intro h
    rw [if_pos h]
  · intro h
    rw [if_neg (by omega)]
    exact ⟨rfl, rfl, rfl, rfl, rfl, rfl, rfl⟩

/-- A state already accumulating three records when a new bulk-select
request for seven arrives. -/
def c5Wit : AppState := ⟨[], 0, 0, 10, ∅, 7, 3, true⟩

/-- Witness for claim C5: a request for seven while three remain from
an earlier request leaves a remaining target of exactly seven. -/
theorem c5_start_replaces_witness :
    (handleSelectN c5Wit).isSelecting = true ∧
    (handleSelectN c5Wit).remainingToSelect = c5Wit.selectCount := by
  have h := (c5_start_replaces c5Wit).2 (by decide)
  exact ⟨h.1, h.2.1⟩

/-! Claim C6. -/

/-- Claim C6: a page-change request is accepted exactly when the page
computed from the requested offset and page size lies within the
current page bounds, in which case the offset and page size are
stored; otherwise the whole state is left unchanged, with no error
signalled. -/
theorem c6_page_change_bounds :
    ∀ (s : AppState) (eFirst eRows : Nat), 0 < eRows →
      ((1 ≤ eFirst / eRows + 1 ∧ eFirst / eRows + 1 ≤ totalPages s) →
        (handlePageChange eFirst eRows s).first = eFirst ∧
        (handlePageChange eFirst eRows s).rows = eRows ∧
        (handlePageChange eFirst eRows s).data = s.data ∧
        (handlePageChange eFirst eRows s).totalRecords = s.totalRecords ∧
        (handlePageChange eFirst eRows s).selected = s.selected ∧
        (handlePageChange eFirst eRows s).remainingToSelect = s.remainingToSelect ∧
        (handlePageChange eFirst eRows s).isSelecting = s.isSelecting) ∧
      (¬ (1 ≤ eFirst / eRows + 1 ∧ eFirst / eRows + 1 ≤ totalPages s) →
        handlePageChange eFirst eRows s = s) := by
  intro s eFirst eRows _
  unfold handlePageChange
  constructor
  · intro h
    rw [if_pos h]
    exact ⟨rfl, rfl, rfl, rfl, rfl, rfl, rfl⟩
  · intro h
    rw [if_neg h]

/-- Witness for claim C6: moving to page three of a ten-page view is
accepted and stores the requested offset and page size. -/
theorem c6_page_change_bounds_witness :
    (handlePageChange 20 10 afterSecondFetch).first = 20 ∧
    (handlePageChange 20 10 afterSecondFetch).rows = 10 := by
  have h := (c6_page_change_bounds afterSecondFetch 20 10 (by decide)).1 (by decide)
  exact ⟨h.1, h.2.1⟩

/-! Claim C7. -/

/-- Membership after folding an insert of every page id over a set:
the old members plus the page ids. -/
theorem mem_foldl_insert (l : List Artwork) (S : Finset Nat) (x : Nat) :
    (x ∈ l.foldl (fun acc item => insert item.id acc) S) ↔
      x ∈ S ∨ ∃ a ∈ l, a.id = x := by
  induction l generalizing S with
  | nil => simp
  | cons a rest ih =>
      simp only [List.foldl_cons, ih, Finset.mem_insert, List.mem_cons]
      constructor
      · rintro ((h | h) | ⟨b, hb, rfl⟩)
        · exact Or.inr ⟨a, Or.inl rfl, h.symm⟩
        · exact Or.inl h
        · exact Or.inr ⟨b, Or.inr hb, rfl⟩
      · rintro (h | ⟨b, hb | hb, rfl⟩)
        · exact Or.inl (Or.inr h)
        · exact Or.inl (Or.inl (hb ▸ rfl))
        · exact Or.inr ⟨b, hb, rfl⟩

/-- Membership after folding an erase of every page id over a set: the
old members that are not page ids. -/
theorem mem_foldl_erase (l : List Artwork) (S : Finset Nat) (x : Nat) :
    (x ∈ l.foldl (fun acc item => acc.erase item.id) S) ↔
      x ∈ S ∧ ∀ a ∈ l, a.id ≠ x := by
  induction l generalizing S with
  | nil => simp
  | cons a rest ih =>
      simp only [List.foldl_cons, ih, Finset.mem_erase, List.mem_cons]
      constructor
      · rintro ⟨⟨hne, hS⟩, hrest⟩
        refine ⟨hS, ?_⟩
        rintro b (rfl | hb)
        · exact fun he => hne he.symm
        · exact hrest b hb
      · rintro ⟨hS, hall⟩
        exact ⟨⟨fun he => hall a (Or.inl rfl) he.symm, hS⟩, fun b hb => hall b (Or.inr hb)⟩

/-- The page shown is untouched by the page-scoped toggle. -/
theorem toggleSelectAll_data (s : AppState) : (toggleSelectAll s).data = s.data := by
  unfold toggleSelectAll
  split <;> rfl

/-- Membership in the selection after one page-scoped toggle: when the
page was nonempty and fully selected its ids are all dropped,
otherwise they are all added. -/
theorem toggleSelectAll_mem (s : AppState) (x : Nat) :
    (x ∈ (toggleSelectAll s).selected) ↔
      (if 0 < s.data.length ∧ ∀ a ∈ s.data, a.id ∈ s.selected
       then x ∈ s.selected ∧ ∀ a ∈ s.data, a.id ≠ x
       else x ∈ s.selected ∨ ∃ a ∈ s.data, a.id = x) := by
  unfold toggleSelectAll
  split
  · exact mem_foldl_erase s.data s.selected x
  · exact mem_foldl_insert s.data s.selected x

/-- On an empty page the page-scoped toggle leaves the selection
unchanged. -/
theorem toggleSelectAll_nil (s : AppState) (h : s.data = []) :
    (toggleSelectAll s).selected = s.selected := by
  apply Finset.ext
  intro x
  rw [toggleSelectAll_mem, if_neg (by simp [h])]
  simp [h]

/-- A two-record page of which only the first record is selected: a
mixed page. -/
def c7Mixed : AppState := ⟨[mkArt 1, mkArt 2], 20, 0, 10, {1}, 0, 0, false⟩

/-- Claim C7 counterexample: on a mixed page the double application is
not an involution. Starting from the page with ids 1 and 2 of which
only 1 is selected, the first application selects both, the second
deselects both, ending empty rather than back at the singleton. -/
theorem c7_counterexample :
    (toggleSelectAll (toggleSelectAll c7Mixed)).selected ≠ c7Mixed.selected ∧
    (toggleSelectAll c7Mixed).selected = ({1, 2} : Finset Nat) ∧
    (toggleSelectAll (toggleSelectAll c7Mixed)).selected = (∅ : Finset Nat) := by
  decide

/-- Claim C7 as amended: one application of the page-scoped toggle
either removes every page id, when all were selected, or adds every
page id, when at least one was unselected, never leaving the page
mixed; and the double application restores the prior selection set
provided the page was not mixed beforehand, that is, provided every
page id was selected or none was. On a mixed page the double
application instead drops the previously selected page ids. -/
theorem c7_toggle_all_page :
    (∀ s : AppState,
      (∀ a ∈ s.data, a.id ∈ (toggleSelectAll s).selected) ∨
      (∀ a ∈ s.data, a.id ∉ (toggleSelectAll s).selected)) ∧
    (∀ s : AppState,
      ((0 < s.data.length ∧ ∀ a ∈ s.data, a.id ∈ s.selected) →
        ∀ a ∈ s.data, a.id ∉ (toggleSelectAll s).selected) ∧
      ((∃ a ∈ s.data, a.id ∉ s.selected) →
        ∀ a ∈ s.data, a.id ∈ (toggleSelectAll s).selected)) ∧
    (∀ s : AppState,
      ((∀ a ∈ s.data, a.id ∈ s.selected) ∨ (∀ a ∈ s.data, a.id ∉ s.selected)) →
      (toggleSelectAll (toggleSelectAll s)).selected = s.selected) := by
  refine ⟨?_, ?_, ?_⟩
  · intro s
    unfold toggleSelectAll
    split
    · right
      intro a ha
      simp only [mem_foldl_erase]
      rintro ⟨_, hall⟩
      exact hall a ha rfl
    · left
      intro a ha
      simp only [mem_foldl_insert]
      exact Or.inr ⟨a, ha, rfl⟩
  · intro s
    constructor
    · intro h
      unfold toggleSelectAll
      rw [if_pos h]
      intro a ha
      simp only [mem_foldl_erase]
      rintro ⟨_, hall⟩
      exact hall a ha rfl
    · intro hex
      unfold toggleSelectAll
      rw [if_neg ?_]
      · intro a ha
        simp only [mem_foldl_insert]
        exact Or.inr ⟨a, ha, rfl⟩
      · rintro ⟨_, hall⟩
        obtain ⟨a, ha, hna⟩ := hex
        exact hna (hall a ha)
  · intro s hpure
    by_cases hnil : s.data = []
    · rw [toggleSelectAll_nil (toggleSelectAll s) (by rw [toggleSelectAll_data, hnil]),
        toggleSelectAll_nil s hnil]
    · obtain ⟨a0, ha0⟩ := List.exists_mem_of_ne_nil s.data hnil
      have hlen : 0 < s.data.length := List.length_pos.mpr hnil
      rcases hpure with hall | hnone
      · have hP : 0 < s.data.length ∧ ∀ a ∈ s.data, a.id ∈ s.selected := ⟨hlen, hall⟩
        have h1 : ∀ x, x ∈ (toggleSelectAll s).selected ↔
            x ∈ s.selected ∧ ∀ a ∈ s.data, a.id ≠ x := by
          intro x
          rw [toggleSelectAll_mem, if_pos hP]
        have hnP1 : ¬ (0 < (toggleSelectAll s).data.length ∧
            ∀ a ∈ (toggleSelectAll s).data, a.id ∈ (toggleSelectAll s).selected) := by
          rw [toggleSelectAll_data]
          rintro ⟨_, hall1⟩
          have := (h1 a0.id).mp (hall1 a0 ha0)
          exact this.2 a0 ha0 rfl
        apply Finset.ext
        intro x
        rw [toggleSelectAll_mem, if_neg hnP1, toggleSelectAll_data]
        constructor
        · rintro (hx | ⟨b, hb, rfl⟩)
          · exact ((h1 x).mp hx).1
          · exact hall b hb
        · intro hx
          by_cases hex : ∃ a ∈ s.data, a.id = x
          · exact Or.inr hex
          · exact Or.inl ((h1 x).mpr ⟨hx, fun a ha he => hex ⟨a, ha, he⟩⟩)
      · have hnP : ¬ (0 < s.data.length ∧ ∀ a ∈ s.data, a.id ∈ s.selected) := by
          rintro ⟨_, hall1⟩
          exact hnone a0 ha0 (hall1 a0 ha0)
        have h1 : ∀ x, x ∈ (toggleSelectAll s).selected ↔
            x ∈ s.selected ∨ ∃ a ∈ s.data, a.id = x := by
          intro x
          rw [toggleSelectAll_mem, if_neg hnP]
        have hP1 : 0 < (toggleSelectAll s).data.length ∧
            ∀ a ∈ (toggleSelectAll s).data, a.id ∈ (toggleSelectAll s).selected := by
          rw [toggleSelectAll_data]
          exact ⟨hlen, fun a ha => (h1 a.id).mpr (Or.inr ⟨a, ha, rfl⟩)⟩
        apply Finset.ext
        intro x
        rw [toggleSelectAll_mem, if_pos hP1, toggleSelectAll_data]
        constructor
        · rintro ⟨hx1, hni⟩
          rcases (h1 x).mp hx1 with hx | ⟨b, hb, rfl⟩
          · exact hx
          · exact absurd rfl (hni b hb)
        · intro hx
          exact ⟨(h1 x).mpr (Or.inl hx), fun a ha he => hnone a ha (he ▸ hx)⟩

/-- Witness for claim C7: on a page none of whose ids is selected, the
double application of the page-scoped toggle restores the prior
selection. -/
theorem c7_toggle_all_page_witness :
    (toggleSelectAll (toggleSelectAll c2s0)).selected = c2s0.selected :=
  c7_toggle_all_page.2.2 c2s0 (Or.inr (by decide))

/-! Claim C8. -/

/-- Claim C8: a failed fetch reaches only the catch block, which logs,
so every component of the state, including the selection set and the
accumulator, is exactly what it was before the fetch; an active bulk
select is not aborted. -/
theorem c8_fetch_failure_frame :
    ∀ s : AppState,
      applyFetch .failure s = s ∧
      (applyFetch .failure s).data = s.data ∧
      (applyFetch .failure s).totalRecords = s.totalRecords ∧
      (applyFetch .failure s).first = s.first ∧
      (applyFetch .failure s).rows = s.rows ∧
      (applyFetch .failure s).selected = s.selected ∧
      (applyFetch .failure s).remainingToSelect = s.remainingToSelect ∧
      (applyFetch .failure s).isSelecting = s.isSelecting := by
  intro s
  exact ⟨rfl, rfl, rfl, rfl, rfl, rfl, rfl, rfl⟩

/-! Claim C9. -/

/-- Claim C9: a successful response with the pagination object absent,
or present with its total field absent, stores a total record count of
exactly 100, so the derived page count becomes the ceiling of 100 over
the page size. -/
theorem c9_missing_total_defaults :
    ∀ (s : AppState) (d : Option (List Artwork)) (pj : PaginationJson),
      ((applyFetch (.success ⟨d, none⟩) s).totalRecords = 100 ∧
        totalPages (applyFetch (.success ⟨d, none⟩) s) = ceilDiv 100 s.rows) ∧
      (pj.total = none →
        (applyFetch (.success ⟨d, some pj⟩) s).totalRecords = 100 ∧
        totalPages (applyFetch (.success ⟨d, some pj⟩) s) = ceilDiv 100 s.rows) := by
  intro s d pj
  refine ⟨⟨rfl, rfl⟩, fun h => ?_⟩
  obtain ⟨t, cp, tp, lim⟩ := pj
  cases h
  exact ⟨rfl, rfl⟩

/-- Witness for claim C9, applying the default at a concrete response
whose pagination object carries no total. -/
theorem c9_missing_total_defaults_witness :
    (applyFetch (.success ⟨none, some ⟨none, none, none, none⟩⟩) c2s0).totalRecords = 100 :=
  ((c9_missing_total_defaults c2s0 none ⟨none, none, none, none⟩).2 rfl).1

/-! Claim C10. -/

/-- Claim C10: a successful response reporting a total of zero also
stores 100, because the JS falsy-or fallback treats zero like an
absent field, so an empty collection is shown with the ceiling of 100
over the page size as its page count. -/
theorem c10_zero_total_defaults :
    ∀ (s : AppState) (d : Option (List Artwork)) (cp tp lim : Option Nat),
      (applyFetch (.success ⟨d, some ⟨some 0, cp, tp, lim⟩⟩) s).totalRecords = 100 ∧
      (applyFetch (.success ⟨d, some ⟨some 0, cp, tp, lim⟩⟩) s).totalRecords ≠ 0 ∧
      totalPages (applyFetch (.success ⟨d, some ⟨some 0, cp, tp, lim⟩⟩) s) = ceilDiv 100 s.rows := by
  intro s d cp tp lim
  exact ⟨rfl, (by omega : (100 : Nat) ≠ 0), rfl⟩

end ArtworksApp
